import Mathlib

/-!
Shallow embedding of the order-tracking backend
(`src/order_tracker_backend/src`): the relational data model
(`db/models.py`), the request-scoped transaction (`db/session.py`),
the authorization gate (`auth/deps.py`) and the request handlers
(`api/routers/orders.py`, `notifications.py`, `auth.py`).

Modelling conventions:
* timestamps are `Nat`; each request handler receives the transaction
  timestamp `t` (Postgres `now()` is fixed per transaction, and every
  `server_default=func.now()` / `onupdate=func.now()` column written in
  one request receives the same value);
* a table is a `List` of rows in insertion order plus a
  `next…Id` counter for the integer primary-key sequence;
* `db.flush()` constraint enforcement (unique / foreign-key
  constraints raising `IntegrityError`) is modelled by explicit checks
  at the insert points; an uncaught `IntegrityError` is
  `ApiError.internalError`;
* SQLAlchemy's unit of work emits an `UPDATE` only when an attribute's
  value actually changed (net change), so `onupdate` timestamp columns
  are bumped only in that case;
* the request-scoped session of `session_scope` commits the handler's
  writes on success and rolls back (keeps the pre-request state) when
  the handler raises.
-/

namespace OrderTracker

/-- `UserRole` enum from `db/models.py`. -/
inductive UserRole where
  | customer
  | admin
deriving DecidableEq

/-- `OrderStatus` enum from `db/models.py`. -/
inductive OrderStatus where
  | created
  | processing
  | shipped
  | delivered
  | cancelled
deriving DecidableEq

/-- `NotificationChannel` enum from `db/models.py`. -/
inductive NotificationChannel where
  | email
  | sms
  | push
deriving DecidableEq

/-- Row of the `users` table (`db/models.py`, class `User`). -/
structure User where
  id : Nat
  email : String
  password_hash : String
  role : UserRole
  is_active : Bool
  created_at : Nat
deriving DecidableEq

/-- Row of the `orders` table (`db/models.py`, class `Order`). -/
structure Order where
  id : Nat
  order_number : String
  user_id : Nat
  title : String
  description : Option String
  current_status : OrderStatus
  created_at : Nat
  updated_at : Nat
deriving DecidableEq

/-- Row of the `order_status_history` table (`db/models.py`,
class `OrderStatusHistory`). -/
structure OrderStatusHistory where
  id : Nat
  order_id : Nat
  old_status : Option OrderStatus
  new_status : OrderStatus
  changed_by_user_id : Option Nat
  note : Option String
  changed_at : Nat
deriving DecidableEq

/-- Row of the `notification_preferences` table (`db/models.py`,
class `NotificationPreference`). -/
structure NotificationPreference where
  id : Nat
  user_id : Nat
  enabled : Bool
  channel : NotificationChannel
  email : Option String
  phone : Option String
  push_token : Option String
  updated_at : Nat
deriving DecidableEq

/-- The database state: one list per table (rows in insertion order)
plus the primary-key sequences. -/
structure DB where
  users : List User
  orders : List Order
  history : List OrderStatusHistory
  prefs : List NotificationPreference
  nextUserId : Nat
  nextOrderId : Nat
  nextHistoryId : Nat
  nextPrefId : Nat
deriving DecidableEq

/-- Error taxonomy of the API layer: the `HTTPException`s raised by the
handlers (404/403/401/409) plus `internalError` for an exception that no
handler catches (surfaced as a 500 after the session rolls back). -/
inductive ApiError where
  | notFound (detail : String)
  | forbidden (detail : String)
  | unauthenticated (detail : String)
  | conflict (detail : String)
  | internalError
deriving DecidableEq

instance {ε α : Type} [DecidableEq ε] [DecidableEq α] :
    DecidableEq (Except ε α) := fun a b =>
  match a, b with
  | .ok x, .ok y =>
    if h : x = y then .isTrue (by rw [h]) else
      .isFalse (by intro hc; cases hc; exact h rfl)
  | .error e, .error f =>
    if h : e = f then .isTrue (by rw [h]) else
      .isFalse (by intro hc; cases hc; exact h rfl)
  | .ok _, .error _ => .isFalse (by intro hc; cases hc)
  | .error _, .ok _ => .isFalse (by intro hc; cases hc)

/-- `session_scope` from `db/session.py`: run the handler body on the
current state; commit its writes on success, roll back (keep the original
state) on any error. -/
def runTransaction (body : DB → Except ApiError (DB × α)) (db : DB) :
    Except ApiError α × DB :=
  match body db with
  | .ok (db', v) => (.ok v, db')
  | .error e => (.error e, db)

/-- Unique+foreign-key constraints checked by `db.flush()` when inserting
an `Order` row: `uq_orders_order_number` and the `user_id → users.id`
foreign key. -/
def orderInsertOk (db : DB) (o : Order) : Bool :=
  db.orders.all (fun o' => o'.order_number != o.order_number) &&
    db.users.any (fun u => u.id == o.user_id)

/-- Foreign-key constraints checked by `db.flush()` when inserting an
`OrderStatusHistory` row: `order_id → orders.id` and, when present,
`changed_by_user_id → users.id`. -/
def historyInsertOk (db : DB) (h : OrderStatusHistory) : Bool :=
  db.orders.any (fun o => o.id == h.order_id) &&
    (match h.changed_by_user_id with
     | none => true
     | some uid => db.users.any (fun u => u.id == uid))

/-- Unique+foreign-key constraints checked by `db.flush()` when inserting
a `NotificationPreference` row: unique `user_id` and the
`user_id → users.id` foreign key. -/
def prefInsertOk (db : DB) (p : NotificationPreference) : Bool :=
  db.prefs.all (fun q => q.user_id != p.user_id) &&
    db.users.any (fun u => u.id == p.user_id)

/-- `SELECT … FROM orders WHERE id = oid` (first row). -/
def findOrder (db : DB) (oid : Nat) : Option Order :=
  db.orders.find? (fun o => o.id == oid)

/-- `SELECT … FROM notification_preferences WHERE user_id = uid`. -/
def findPref (db : DB) (uid : Nat) : Option NotificationPreference :=
  db.prefs.find? (fun q => q.user_id == uid)

/-- The ascending `(changed_at, id)` ordering used by the `order_by`
clause of the history queries in `get_order` and `update_status`. -/
def historyKeyLe (a b : OrderStatusHistory) : Prop :=
  a.changed_at < b.changed_at ∨ (a.changed_at = b.changed_at ∧ a.id ≤ b.id)

instance : DecidableRel historyKeyLe := fun a b => by
  unfold historyKeyLe; infer_instance

/-- History rows of one order, ordered ascending by `(changed_at, id)`:
the query issued by `get_order` and `update_status`. -/
def orderedHistoryFor (db : DB) (oid : Nat) : List OrderStatusHistory :=
  (db.history.filter (fun h => h.order_id == oid)).insertionSort historyKeyLe

/-- The `created_at` descending ordering used by `list_orders`. -/
def createdAtDesc (a b : Order) : Prop := b.created_at ≤ a.created_at

instance : DecidableRel createdAtDesc := fun a b => by
  unfold createdAtDesc; infer_instance

/-- `OrderCreateRequest` from `schemas.py`. -/
structure OrderCreateRequest where
  order_number : String
  title : String
  description : Option String
deriving DecidableEq

/-- `OrderUpdateRequest` from `schemas.py`. -/
structure OrderUpdateRequest where
  title : Option String
  description : Option String
deriving DecidableEq

/-- `OrderStatusUpdateRequest` from `schemas.py`. -/
structure OrderStatusUpdateRequest where
  new_status : OrderStatus
  note : Option String
deriving DecidableEq

/-- `OrderStatusHistoryItem` from `schemas.py`. -/
structure OrderStatusHistoryItem where
  id : Nat
  old_status : Option OrderStatus
  new_status : OrderStatus
  changed_by_user_id : Option Nat
  note : Option String
  changed_at : Nat
deriving DecidableEq

/-- `OrderResponse` from `schemas.py`. -/
structure OrderResponse where
  id : Nat
  order_number : String
  user_id : Nat
  title : String
  description : Option String
  current_status : OrderStatus
  created_at : Nat
  updated_at : Nat
deriving DecidableEq

/-- `OrderDetailResponse` from `schemas.py` (an `OrderResponse` plus the
history list). -/
structure OrderDetailResponse where
  id : Nat
  order_number : String
  user_id : Nat
  title : String
  description : Option String
  current_status : OrderStatus
  created_at : Nat
  updated_at : Nat
  history : List OrderStatusHistoryItem
deriving DecidableEq

/-- `_order_to_response` from `api/routers/orders.py`. -/
def orderToResponse (o : Order) : OrderResponse :=
  { id := o.id
    order_number := o.order_number
    user_id := o.user_id
    title := o.title
    description := o.description
    current_status := o.current_status
    created_at := o.created_at
    updated_at := o.updated_at }

/-- `_history_item` from `api/routers/orders.py`. -/
def historyItem (h : OrderStatusHistory) : OrderStatusHistoryItem :=
  { id := h.id
    old_status := h.old_status
    new_status := h.new_status
    changed_by_user_id := h.changed_by_user_id
    note := h.note
    changed_at := h.changed_at }

/-- Building an `OrderDetailResponse` from an order and a history row
list, as the handlers do via `model_dump` plus `_history_item`. -/
def detailResponse (o : Order) (hs : List OrderStatusHistory) :
    OrderDetailResponse :=
  { id := o.id
    order_number := o.order_number
    user_id := o.user_id
    title := o.title
    description := o.description
    current_status := o.current_status
    created_at := o.created_at
    updated_at := o.updated_at
    history := hs.map historyItem }

/-- Handler body of `create_order` (`api/routers/orders.py`). The
`require_admin` dependency is the leading role check; the first
`db.flush()` surfaces an `IntegrityError` (duplicate `order_number` or
dangling `user_id` foreign key) as 409 "Order number already exists";
the second flush inserts the system creation history row. -/
def createOrderBody (p : OrderCreateRequest) (user_id : Nat) (actor : User)
    (t : Nat) (db : DB) : Except ApiError (DB × OrderResponse) :=
  if actor.role ≠ UserRole.admin then
    .error (.forbidden "Admin role required")
  else
    let order : Order :=
      { id := db.nextOrderId
        order_number := p.order_number
        user_id := user_id
        title := p.title
        description := p.description
        current_status := OrderStatus.created
        created_at := t
        updated_at := t }
    if orderInsertOk db order then
      let db1 : DB := { db with
        orders := db.orders ++ [order], nextOrderId := db.nextOrderId + 1 }
      let h : OrderStatusHistory :=
        { id := db1.nextHistoryId
          order_id := order.id
          old_status := none
          new_status := order.current_status
          changed_by_user_id := none
          note := none
          changed_at := t }
      if historyInsertOk db1 h then
        let db2 : DB := { db1 with
          history := db1.history ++ [h],
          nextHistoryId := db1.nextHistoryId + 1 }
        .ok (db2, orderToResponse order)
      else
        .error .internalError
    else
      .error (.conflict "Order number already exists")

/-- `create_order` endpoint: the body wrapped in the request-scoped
transaction. -/
def createOrder (p : OrderCreateRequest) (user_id : Nat) (actor : User)
    (t : Nat) (db : DB) : Except ApiError OrderResponse × DB :=
  runTransaction (createOrderBody p user_id actor t) db

/-- Handler body of `get_order` (`api/routers/orders.py`). -/
def getOrderBody (oid : Nat) (user : User) (db : DB) :
    Except ApiError (DB × OrderDetailResponse) :=
  match findOrder db oid with
  | none => .error (.notFound "Order not found")
  | some order =>
    if user.role ≠ UserRole.admin ∧ order.user_id ≠ user.id then
      .error (.forbidden "Not authorized to view this order")
    else
      .ok (db, detailResponse order (orderedHistoryFor db order.id))

/-- `get_order` endpoint. -/
def getOrder (oid : Nat) (user : User) (db : DB) :
    Except ApiError OrderDetailResponse × DB :=
  runTransaction (getOrderBody oid user) db

/-- Handler body of `lookup_by_number` (`api/routers/orders.py`). Its
history query has no `order_by` clause, so the store may return the
matching rows in any order; `fetched` is the row order the store chose
(theorems about this handler constrain it to a permutation of the
matching rows). -/
def lookupByNumberBody (order_number : String) (user : User)
    (fetched : List OrderStatusHistory) (db : DB) :
    Except ApiError (DB × OrderDetailResponse) :=
  match db.orders.find? (fun o => o.order_number == order_number) with
  | none => .error (.notFound "Order not found")
  | some order =>
    if user.role ≠ UserRole.admin ∧ order.user_id ≠ user.id then
      .error (.forbidden "Not authorized to view this order")
    else
      .ok (db, detailResponse order fetched)

/-- `lookup_by_number` endpoint. -/
def lookupByNumber (order_number : String) (user : User)
    (fetched : List OrderStatusHistory) (db : DB) :
    Except ApiError OrderDetailResponse × DB :=
  runTransaction (lookupByNumberBody order_number user fetched) db

/-- Handler body of `list_orders` (`api/routers/orders.py`). -/
def listOrdersBody (user : User) (db : DB) :
    Except ApiError (DB × List OrderResponse) :=
  let orders :=
    if user.role = UserRole.admin then
      db.orders.insertionSort createdAtDesc
    else
      (db.orders.filter (fun o => o.user_id == user.id)).insertionSort
        createdAtDesc
  .ok (db, orders.map orderToResponse)

/-- `list_orders` endpoint. -/
def listOrders (user : User) (db : DB) :
    Except ApiError (List OrderResponse) × DB :=
  runTransaction (listOrdersBody user) db

/-- Handler body of `update_order` (`api/routers/orders.py`): partial
patch of `title`/`description`. The flush emits an `UPDATE` (and thereby
bumps the `onupdate` column `updated_at`) only when an attribute's value
actually changed. -/
def updateOrderBody (oid : Nat) (p : OrderUpdateRequest) (user : User)
    (t : Nat) (db : DB) : Except ApiError (DB × OrderResponse) :=
  match findOrder db oid with
  | none => .error (.notFound "Order not found")
  | some order =>
    if user.role ≠ UserRole.admin ∧ order.user_id ≠ user.id then
      .error (.forbidden "Not authorized")
    else
      let newTitle := p.title.getD order.title
      let newDesc := p.description.or order.description
      let changed := newTitle ≠ order.title ∨ newDesc ≠ order.description
      let order' : Order := { order with
        title := newTitle
        description := newDesc
        updated_at := if changed then t else order.updated_at }
      let db' : DB := { db with
        orders := db.orders.map (fun o => if o.id == oid then order' else o) }
      .ok (db', orderToResponse order')

/-- `update_order` endpoint. -/
def updateOrder (oid : Nat) (p : OrderUpdateRequest) (user : User) (t : Nat)
    (db : DB) : Except ApiError OrderResponse × DB :=
  runTransaction (updateOrderBody oid p user t) db

/-- Handler body of `update_status` (`api/routers/orders.py`): reads the
order, sets `current_status` unconditionally, appends a history row with
the prior status, the acting admin's id and the optional note, then
returns the order with its full ordered history. The `onupdate` column
`updated_at` is bumped only when the status value actually changed. -/
def updateStatusBody (oid : Nat) (p : OrderStatusUpdateRequest)
    (actor : User) (t : Nat) (db : DB) :
    Except ApiError (DB × OrderDetailResponse) :=
  if actor.role ≠ UserRole.admin then
    .error (.forbidden "Admin role required")
  else
    match findOrder db oid with
    | none => .error (.notFound "Order not found")
    | some order =>
      let old := order.current_status
      let order' : Order := { order with
        current_status := p.new_status
        updated_at := if order.current_status = p.new_status then
          order.updated_at else t }
      let db1 : DB := { db with
        orders := db.orders.map (fun o => if o.id == oid then order' else o) }
      let h : OrderStatusHistory :=
        { id := db1.nextHistoryId
          order_id := order.id
          old_status := some old
          new_status := p.new_status
          changed_by_user_id := some actor.id
          note := p.note
          changed_at := t }
      if historyInsertOk db1 h then
        let db2 : DB := { db1 with
          history := db1.history ++ [h],
          nextHistoryId := db1.nextHistoryId + 1 }
        .ok (db2, detailResponse order' (orderedHistoryFor db2 order.id))
      else
        .error .internalError

/-- `update_status` endpoint. -/
def updateStatus (oid : Nat) (p : OrderStatusUpdateRequest) (actor : User)
    (t : Nat) (db : DB) : Except ApiError OrderDetailResponse × DB :=
  runTransaction (updateStatusBody oid p actor t) db

/-- `NotificationPreferenceUpsertRequest` from `schemas.py`. -/
structure NotificationPreferenceUpsertRequest where
  enabled : Bool
  channel : NotificationChannel
  email : Option String
  phone : Option String
  push_token : Option String
deriving DecidableEq

/-- `NotificationPreferenceResponse` from `schemas.py`. -/
structure NotificationPreferenceResponse where
  enabled : Bool
  channel : NotificationChannel
  email : Option String
  phone : Option String
  push_token : Option String
  updated_at : Nat
deriving DecidableEq

/-- The attribute assignments of `upsert_preferences`
(`api/routers/notifications.py`): `enabled`, `channel`, `phone` and
`push_token` are overwritten with the request values, while `email` is
kept when the incoming value is absent
(`str(payload.email) if payload.email is not None else pref.email`).
The `onupdate` column `updated_at` is bumped only when some attribute's
value actually changed. -/
def applyPrefAssign (pr : NotificationPreference)
    (p : NotificationPreferenceUpsertRequest) (t : Nat) :
    NotificationPreference :=
  let newEmail := p.email.or pr.email
  let changed := pr.enabled ≠ p.enabled ∨ pr.channel ≠ p.channel ∨
    newEmail ≠ pr.email ∨ p.phone ≠ pr.phone ∨ p.push_token ≠ pr.push_token
  { pr with
    enabled := p.enabled
    channel := p.channel
    email := newEmail
    phone := p.phone
    push_token := p.push_token
    updated_at := if changed then t else pr.updated_at }

/-- Handler body of `upsert_preferences`
(`api/routers/notifications.py`): if the caller has no preference row one
is inserted first with the column defaults
(`enabled=true, channel=email`, contact fields null), then the request's
values are assigned and flushed. -/
def upsertPreferencesBody (p : NotificationPreferenceUpsertRequest)
    (user : User) (t : Nat) (db : DB) :
    Except ApiError (DB × NotificationPreferenceResponse) :=
  let step : Except ApiError (DB × NotificationPreference) :=
    match findPref db user.id with
    | some pr => .ok (db, pr)
    | none =>
      let fresh : NotificationPreference :=
        { id := db.nextPrefId
          user_id := user.id
          enabled := true
          channel := NotificationChannel.email
          email := none
          phone := none
          push_token := none
          updated_at := t }
      if prefInsertOk db fresh then
        let dbIns : DB := { db with
          prefs := db.prefs ++ [fresh], nextPrefId := db.nextPrefId + 1 }
        .ok (dbIns, fresh)
      else
        .error .internalError
  match step with
  | .error e => .error e
  | .ok (db1, pr) =>
    let pr' := applyPrefAssign pr p t
    let db2 : DB := { db1 with
      prefs := db1.prefs.map (fun q => if q.user_id == user.id then pr' else q) }
    .ok (db2,
      { enabled := pr'.enabled
        channel := pr'.channel
        email := pr'.email
        phone := pr'.phone
        push_token := pr'.push_token
        updated_at := pr'.updated_at })

/-- `upsert_preferences` endpoint. -/
def upsertPreferences (p : NotificationPreferenceUpsertRequest)
    (user : User) (t : Nat) (db : DB) :
    Except ApiError NotificationPreferenceResponse × DB :=
  runTransaction (upsertPreferencesBody p user t) db

/-- `SignupRequest` from `schemas.py`: the payload accepts an optional
`role` value. -/
structure SignupRequest where
  email : String
  password : String
  role : Option UserRole
deriving DecidableEq

/-- `UserPublic` from `schemas.py`. -/
structure UserPublic where
  id : Nat
  email : String
  role : UserRole
  created_at : Nat
deriving DecidableEq

/-- Handler body of `signup` (`api/routers/auth.py`): rejects an already
registered email with 409, otherwise inserts the user with
`role=UserRole.customer` (the payload's `role` field is never read) and
the default notification preference row
(`enabled=true, channel=email, email=user.email`). `hash` is the
`hash_password` collaborator from `auth/security.py`. -/
def signupBody (hash : String → String) (p : SignupRequest) (t : Nat)
    (db : DB) : Except ApiError (DB × UserPublic) :=
  if db.users.any (fun u => u.email == p.email) then
    .error (.conflict "Email already registered")
  else
    let user : User :=
      { id := db.nextUserId
        email := p.email
        password_hash := hash p.password
        role := UserRole.customer
        is_active := true
        created_at := t }
    let db1 : DB := { db with
      users := db.users ++ [user], nextUserId := db.nextUserId + 1 }
    let pref : NotificationPreference :=
      { id := db1.nextPrefId
        user_id := user.id
        enabled := true
        channel := NotificationChannel.email
        email := some user.email
        phone := none
        push_token := none
        updated_at := t }
    if prefInsertOk db1 pref then
      let db2 : DB := { db1 with
        prefs := db1.prefs ++ [pref], nextPrefId := db1.nextPrefId + 1 }
      .ok (db2,
        { id := user.id
          email := user.email
          role := user.role
          created_at := user.created_at })
    else
      .error .internalError

/-- `signup` endpoint. -/
def signup (hash : String → String) (p : SignupRequest) (t : Nat)
    (db : DB) : Except ApiError UserPublic × DB :=
  runTransaction (signupBody hash p t) db

/-- Decimal parse of the decoded `sub` claim, modelling `int(user_id)`
in `get_current_user`: `some` exactly on non-empty strings of decimal
digits. (Python's `int` also tolerates surrounding whitespace and a
sign, but the gate only ever receives subjects the token service wrote
with `str(user.id)` — plain numerals — so the difference is
immaterial.) -/
def decimalToNat? (s : String) : Option Nat :=
  if s.data ≠ [] ∧ s.data.all Char.isDigit then
    some (s.data.foldl (fun n c => n * 10 + (c.toNat - Char.toNat '0')) 0)
  else
    none

/-- The claims a decoded bearer token carries that the authorization
gate reads: `get_current_user` only looks at `sub` (and `require_admin`
re-reads the role from the freshly loaded user row, not from the
token). -/
structure TokenClaims where
  sub : String
  role : String
deriving DecidableEq

/-- `get_current_user` from `auth/deps.py`. `decode` is the
`decode_token` collaborator from `auth/security.py` (`none` = any
decode/validation failure: malformed, expired, wrong signature, missing
required claim). The branch where `int(user_id)` raises an uncaught
`ValueError` (a decoded `sub` that is present and non-empty but not a
decimal number) is modelled as `internalError`. -/
def getCurrentUser (db : DB) (decode : String → Option TokenClaims)
    (cred : Option String) : Except ApiError User :=
  match cred with
  | none => .error (.unauthenticated "Not authenticated")
  | some c =>
    if c = "" then .error (.unauthenticated "Not authenticated")
    else
      match decode c with
      | none => .error (.unauthenticated "Invalid token")
      | some payload =>
        if payload.sub = "" then
          .error (.unauthenticated "Invalid token subject")
        else
          match decimalToNat? payload.sub with
          | none => .error .internalError
          | some uid =>
            match db.users.find? (fun u => u.id == uid) with
            | none => .error (.unauthenticated "User not found or inactive")
            | some u =>
              if u.is_active then .ok u
              else .error (.unauthenticated "User not found or inactive")

/-! ## Concrete states used by the closed witness and counterexample
theorems -/

/-- An active admin user. -/
def wAdmin : User := ⟨1, "admin@x", "h", .admin, true, 0⟩

/-- An active customer user. -/
def wCustomer : User := ⟨7, "cust@x", "h", .customer, true, 0⟩

/-- A second active customer user, owner of `wOrder`. -/
def wOwner : User := ⟨8, "owner@x", "h", .customer, true, 0⟩

/-- An order owned by `wOwner`. -/
def wOrder : Order := ⟨1, "ORD-1", 8, "T", none, .created, 0, 0⟩

/-- A database with one admin user and no orders. -/
def wDb0 : DB := ⟨[wAdmin], [], [], [], 2, 1, 1, 1⟩

/-- A database with a customer, an admin, an owner and one order of the
owner (with its creation history row). -/
def wDb3 : DB :=
  ⟨[wCustomer, wAdmin, wOwner], [wOrder],
   [⟨1, 1, none, .created, none, none, 0⟩], [], 9, 2, 2, 1⟩

/-- The state of `wDb0` after the admin creates order "ORD-1" for user 1
and then marks it shipped, both in transactions with timestamp 1: the
two history rows share `changed_at`, so their `(changed_at, id)` order
is decided by the id tie-break. -/
def wDb2 : DB :=
  (updateStatus 1 ⟨.shipped, some "left warehouse"⟩ wAdmin 1
    (createOrder ⟨"ORD-1", "Widget", none⟩ 1 wAdmin 1 wDb0).2).2

/-- A stored preference row of `wCustomer` with an email and a push
token on file. -/
def wPref : NotificationPreference :=
  ⟨1, 7, true, .email, some "a@b.com", none, some "old-push", 0⟩

/-- `wDb3` with the stored preference row `wPref` for `wCustomer`. -/
def wDb4 : DB :=
  ⟨[wCustomer, wAdmin, wOwner], [wOrder],
   [⟨1, 1, none, .created, none, none, 0⟩], [wPref], 9, 2, 2, 2⟩

/-- First history row of `wDb2` (system creation entry). -/
def wRow1 : OrderStatusHistory := ⟨1, 1, none, .created, none, none, 1⟩

/-- Second history row of `wDb2` (the shipped transition). -/
def wRow2 : OrderStatusHistory :=
  ⟨2, 1, some .created, .shipped, some 1, some "left warehouse", 1⟩

/-! ## Invariants and helper lemmas -/

/-- Strict ascending `(changed_at, id)` comparison on history rows. -/
def historyKeyLt (a b : OrderStatusHistory) : Prop :=
  a.changed_at < b.changed_at ∨ (a.changed_at = b.changed_at ∧ a.id < b.id)

instance (a b : OrderStatusHistory) : Decidable (historyKeyLt a b) := by
  unfold historyKeyLt; infer_instance

/-- `current_status` of every order in `orders` equals the `new_status`
of its history row with the greatest `(changed_at, id)` in `history`. -/
def StatusInvL (orders : List Order) (history : List OrderStatusHistory) :
    Prop :=
  ∀ o ∈ orders, ∃ h ∈ history, h.order_id = o.id ∧
    (∀ h' ∈ history, h'.order_id = o.id → h' = h ∨ historyKeyLt h' h) ∧
    h.new_status = o.current_status

instance (orders : List Order) (history : List OrderStatusHistory) :
    Decidable (StatusInvL orders history) := by
  unfold StatusInvL; infer_instance

/-- The status/history invariant on a database state. -/
def StatusInv (db : DB) : Prop := StatusInvL db.orders db.history

instance (db : DB) : Decidable (StatusInv db) := by
  unfold StatusInv; infer_instance

/-- Well-formedness of a reachable database state: primary keys are below
their sequences, history rows reference already-allocated order ids, and
the unique columns are distinct. -/
def WF (db : DB) : Prop :=
  (∀ u ∈ db.users, u.id < db.nextUserId) ∧
  (∀ o ∈ db.orders, o.id < db.nextOrderId) ∧
  (∀ h ∈ db.history, h.id < db.nextHistoryId) ∧
  (∀ h ∈ db.history, h.order_id < db.nextOrderId) ∧
  (∀ q ∈ db.prefs, q.user_id < db.nextUserId) ∧
  (db.orders.map Order.id).Nodup ∧
  (db.prefs.map NotificationPreference.user_id).Nodup

instance (db : DB) : Decidable (WF db) := by
  unfold WF; infer_instance

/-- A keyed `find?` on a list whose keys are distinct returns exactly the
member with that key. -/
theorem find?_key_eq_some_of_mem {α : Type} (key : α → Nat)
    {l : List α} {a : α} (hm : a ∈ l) (hn : (l.map key).Nodup) :
    l.find? (fun x => key x == key a) = some a := by
  induction l with
  | nil => cases hm
  | cons b l ih =>
    simp only [List.map_cons, List.nodup_cons] at hn
    rcases List.mem_cons.1 hm with rfl | hmem
    · exact List.find?_cons_of_pos _ (by simp)
    · have hkb : ¬ ((key b == key a) = true) := by
        simp only [beq_iff_eq]
        intro he
        exact hn.1 (he ▸ List.mem_map_of_mem key hmem)
      have hkb' : ¬ ((fun x => key x == key a) b = true) := hkb
      rw [List.find?_cons_of_neg l hkb']
      exact ih hmem hn.2

/-- Variant of `find?_key_eq_some_of_mem` with the key value given by an
equation. -/
theorem find?_key_eq_some_of_mem_of_eq {α : Type} (key : α → Nat)
    {l : List α} {a : α} {k : Nat} (hm : a ∈ l) (hk : key a = k)
    (hn : (l.map key).Nodup) :
    l.find? (fun x => key x == k) = some a := by
  subst hk
  exact find?_key_eq_some_of_mem key hm hn

/-- `find?` commutes with a `map` that does not change the predicate's
verdict on any element. -/
theorem find?_map_of_pred_stable {α : Type} (f : α → α) (p : α → Bool)
    (hp : ∀ x, p (f x) = p x) (l : List α) :
    (l.map f).find? p = (l.find? p).map f := by
  have hpf : p ∘ f = p := funext hp
  rw [List.find?_map, hpf]

/-- Mapping a key-preserving function over a list leaves the key list
unchanged. -/
theorem map_key_of_key_preserving {α : Type} (key : α → Nat) (f : α → α)
    (l : List α) (hf : ∀ x ∈ l, key (f x) = key x) :
    (l.map f).map key = l.map key := by
  rw [List.map_map]
  exact List.map_congr_left hf

/-- Appending a new order together with a history row for it (and for it
only) preserves the status/history invariant, provided the new order's id
is fresh on both sides and the row records the order's status. -/
theorem statusInvL_append_create
    {orders : List Order} {history : List OrderStatusHistory}
    (hinv : StatusInvL orders history)
    {o : Order} {h : OrderStatusHistory}
    (hfreshH : ∀ h' ∈ history, h'.order_id ≠ o.id)
    (hfreshO : ∀ o' ∈ orders, o'.id ≠ o.id)
    (hho : h.order_id = o.id) (hhs : h.new_status = o.current_status) :
    StatusInvL (orders ++ [o]) (history ++ [h]) := by
  intro o' ho'
  rcases List.mem_append.1 ho' with hm | hm
  · obtain ⟨w, hw, hwo, hdom, hws⟩ := hinv o' hm
    refine ⟨w, List.mem_append_left _ hw, hwo, ?_, hws⟩
    intro h' hh' hord
    rcases List.mem_append.1 hh' with hh | hh
    · exact hdom h' hh hord
    · rw [List.mem_singleton.1 hh] at hord
      exact absurd (hord.symm.trans hho) (hfreshO o' hm)
  · rw [List.mem_singleton.1 hm]
    refine ⟨h, List.mem_append_right _ (List.mem_singleton.2 rfl), hho, ?_, hhs⟩
    intro h' hh' hord
    rcases List.mem_append.1 hh' with hh | hh
    · exact absurd hord (hfreshH h' hh)
    · exact Or.inl (List.mem_singleton.1 hh)

/-- Overwriting the status of one order (by id) while appending a history
row for it that dominates every existing row preserves the
status/history invariant. -/
theorem statusInvL_append_update
    {orders : List Order} {history : List OrderStatusHistory}
    (hinv : StatusInvL orders history)
    {order order' : Order}
    (hid : order'.id = order.id)
    {h : OrderStatusHistory}
    (hho : h.order_id = order.id) (hhs : h.new_status = order'.current_status)
    (hdom : ∀ h' ∈ history, historyKeyLt h' h) :
    StatusInvL
      (orders.map (fun x => if x.id == order.id then order' else x))
      (history ++ [h]) := by
  intro o' ho'
  obtain ⟨x, hx, hfx⟩ := List.mem_map.1 ho'
  by_cases hxid : x.id = order.id
  · rw [if_pos (beq_iff_eq.2 hxid)] at hfx
    subst hfx
    refine ⟨h, List.mem_append_right _ (List.mem_singleton.2 rfl),
      hho.trans hid.symm, ?_, hhs⟩
    intro h' hh' _
    rcases List.mem_append.1 hh' with hh | hh
    · exact Or.inr (hdom h' hh)
    · exact Or.inl (List.mem_singleton.1 hh)
  · rw [if_neg (by simpa using hxid)] at hfx
    subst hfx
    obtain ⟨w, hw, hwo, hdomx, hws⟩ := hinv x hx
    refine ⟨w, List.mem_append_left _ hw, hwo, ?_, hws⟩
    intro h' hh' hord
    rcases List.mem_append.1 hh' with hh | hh
    · exact hdomx h' hh hord
    · rw [List.mem_singleton.1 hh] at hord
      exact absurd (hord.symm.trans hho) hxid

/-- `create_order` preserves well-formedness and the status/history
invariant (on failure the transaction rolls back, on success the fresh
order is inserted together with its creation history row). -/
theorem createOrder_preserves (db : DB) (hwf : WF db) (hinv : StatusInv db)
    (p : OrderCreateRequest) (uid : Nat) (actor : User) (t : Nat) :
    WF (createOrder p uid actor t db).2 ∧
      StatusInv (createOrder p uid actor t db).2 := by
  unfold createOrder runTransaction
  cases hbody : createOrderBody p uid actor t db with
  | error e => exact ⟨hwf, hinv⟩
  | ok v =>
    obtain ⟨db', resp⟩ := v
    dsimp only
    unfold createOrderBody at hbody
    simp only [] at hbody
    split at hbody
    · exact absurd hbody (by simp)
    · split at hbody
      · split at hbody
        · simp only [Except.ok.injEq, Prod.mk.injEq] at hbody
          obtain ⟨hdb, -⟩ := hbody
          subst hdb
          obtain ⟨w1, w2, w3, w4, w5, w6, w7⟩ := hwf
          refine ⟨⟨w1, ?_, ?_, ?_, w5, ?_, w7⟩, ?_⟩
          · intro o ho
            rcases List.mem_append.1 ho with hm | hm
            · exact Nat.lt_trans (w2 o hm) (Nat.lt_succ_self _)
            · rw [List.mem_singleton.1 hm]
              exact Nat.lt_succ_self _
          · intro hh hhm
            rcases List.mem_append.1 hhm with hm | hm
            · exact Nat.lt_trans (w3 hh hm) (Nat.lt_succ_self _)
            · rw [List.mem_singleton.1 hm]
              exact Nat.lt_succ_self _
          · intro hh hhm
            rcases List.mem_append.1 hhm with hm | hm
            · exact Nat.lt_trans (w4 hh hm) (Nat.lt_succ_self _)
            · rw [List.mem_singleton.1 hm]
              exact Nat.lt_succ_self _
          · rw [List.map_append]
            rw [List.nodup_append]
            refine ⟨w6, List.nodup_singleton _, ?_⟩
            intro a ha hb
            simp only [List.map_cons, List.map_nil, List.mem_singleton] at hb
            obtain ⟨o, ho, hoa⟩ := List.mem_map.1 ha
            rw [hb] at hoa
            exact absurd (hoa ▸ w2 o ho) (Nat.lt_irrefl _)
          · refine statusInvL_append_create hinv ?_ ?_ rfl rfl
            · intro h' hh'
              exact Nat.ne_of_lt (w4 h' hh')
            · intro o' ho'
              exact Nat.ne_of_lt (w2 o' ho')
        · exact absurd hbody (by simp)
      · exact absurd hbody (by simp)

/-- Invariant preservation for the committed state of a successful
`update_status` call, for either value of the `updated_at` column (`ua`
is `order.updated_at` when the status did not change, the transaction
timestamp otherwise). -/
theorem updateStatus_success_inv (db : DB) (order : Order) (oid : Nat)
    (s : OrderStatus) (note : Option String) (aid : Nat) (t ua : Nat)
    (hwf : WF db) (hinv : StatusInv db)
    (hclock : ∀ h ∈ db.history, h.changed_at ≤ t)
    (hmem : order ∈ db.orders) (hoid : order.id = oid) (db' : DB)
    (hdb : db' = DB.mk db.users
      (db.orders.map (fun o => if o.id == oid then
        { order with current_status := s, updated_at := ua } else o))
      (db.history ++ [OrderStatusHistory.mk db.nextHistoryId order.id
        (some order.current_status) s (some aid) note t])
      db.prefs db.nextUserId db.nextOrderId (db.nextHistoryId + 1)
      db.nextPrefId) :
    WF db' ∧ StatusInv db' := by
  subst hdb
  obtain ⟨w1, w2, w3, w4, w5, w6, w7⟩ := hwf
  have hpres : ∀ x ∈ db.orders,
      Order.id (if x.id == oid then
        { order with current_status := s, updated_at := ua } else x) =
        Order.id x := by
    intro x hx
    by_cases hxid : x.id = oid
    · rw [if_pos (beq_iff_eq.2 hxid)]
      exact hoid.trans hxid.symm
    · rw [if_neg (by simpa using hxid)]
  refine ⟨⟨w1, ?_, ?_, ?_, w5, ?_, w7⟩, ?_⟩
  · intro o ho
    obtain ⟨x, hx, hfx⟩ := List.mem_map.1 ho
    rw [← hfx, hpres x hx]
    exact w2 x hx
  · intro hh hhm
    rcases List.mem_append.1 hhm with hm | hm
    · exact Nat.lt_trans (w3 hh hm) (Nat.lt_succ_self _)
    · rw [List.mem_singleton.1 hm]
      exact Nat.lt_succ_self _
  · intro hh hhm
    rcases List.mem_append.1 hhm with hm | hm
    · exact w4 hh hm
    · rw [List.mem_singleton.1 hm]
      exact w2 order hmem
  · rw [map_key_of_key_preserving Order.id _ db.orders hpres]
    exact w6
  · unfold StatusInv
    dsimp only
    rw [← hoid]
    refine @statusInvL_append_update db.orders db.history hinv order
      { order with current_status := s, updated_at := ua } rfl
      (OrderStatusHistory.mk db.nextHistoryId order.id
        (some order.current_status) s (some aid) note t) rfl rfl ?_
    intro h' hh'
    rcases Nat.lt_or_ge h'.changed_at t with hlt | hge
    · exact Or.inl hlt
    · exact Or.inr ⟨Nat.le_antisymm (hclock h' hh') hge, w3 h' hh'⟩

/-- `update_status` preserves well-formedness and the status/history
invariant whenever the transaction timestamp is not earlier than any
recorded `changed_at` (monotone database clock; equal timestamps are
resolved by the id tie-break, since the appended row takes a fresh,
larger id). -/
theorem updateStatus_preserves (db : DB) (hwf : WF db) (hinv : StatusInv db)
    (t : Nat) (hclock : ∀ h ∈ db.history, h.changed_at ≤ t)
    (oid : Nat) (p : OrderStatusUpdateRequest) (actor : User) :
    WF (updateStatus oid p actor t db).2 ∧
      StatusInv (updateStatus oid p actor t db).2 := by
  unfold updateStatus runTransaction
  cases hbody : updateStatusBody oid p actor t db with
  | error e => exact ⟨hwf, hinv⟩
  | ok v =>
    obtain ⟨db', resp⟩ := v
    dsimp only
    unfold updateStatusBody at hbody
    split at hbody
    · exact absurd hbody (by simp)
    · split at hbody
      · exact absurd hbody (by simp)
      · rename_i order hfind
        have hmem : order ∈ db.orders := List.mem_of_find?_eq_some hfind
        have hoid : order.id = oid := by
          have := List.find?_some hfind
          simpa using this
        simp only [] at hbody
        split at hbody
        · split at hbody
          · simp only [Except.ok.injEq, Prod.mk.injEq] at hbody
            obtain ⟨hdb, -⟩ := hbody
            exact updateStatus_success_inv db order oid p.new_status p.note
              actor.id t order.updated_at hwf hinv hclock hmem hoid db'
              hdb.symm
          · exact absurd hbody (by simp)
        · split at hbody
          · simp only [Except.ok.injEq, Prod.mk.injEq] at hbody
            obtain ⟨hdb, -⟩ := hbody
            exact updateStatus_success_inv db order oid p.new_status p.note
              actor.id t t hwf hinv hclock hmem hoid db' hdb.symm
          · exact absurd hbody (by simp)

/-! ## Claim theorems -/

/-- C1: for every order in the store, `current_status` equals the
`new_status` of that order's history row with the greatest
`(changed_at, id)` (`StatusInv`); starting from any well-formed state
satisfying the invariant, it holds after `create_order` (which appends
the system creation entry with `new_status = created`) and is preserved
by every `update_status` call (which appends a row whose `new_status`
equals the status written to the order), for any transaction timestamp
not earlier than the already-recorded `changed_at` values (monotone
database clock). -/
theorem current_status_matches_latest_history
    (db : DB) (hwf : WF db) (hinv : StatusInv db) (t : Nat)
    (hclock : ∀ h ∈ db.history, h.changed_at ≤ t)
    (p : OrderCreateRequest) (uid : Nat) (actor : User)
    (oid : Nat) (q : OrderStatusUpdateRequest) (actor' : User) :
    (WF (createOrder p uid actor t db).2 ∧
      StatusInv (createOrder p uid actor t db).2) ∧
    (WF (updateStatus oid q actor' t db).2 ∧
      StatusInv (updateStatus oid q actor' t db).2) :=
  ⟨createOrder_preserves db hwf hinv p uid actor t,
   updateStatus_preserves db hwf hinv t hclock oid q actor'⟩

/-- Closed witness for C1 at a concrete state: one admin user, an order
created and then shipped. -/
theorem current_status_matches_latest_history_witness :
    WF wDb0 ∧ StatusInv wDb0 ∧ (∀ h ∈ wDb0.history, h.changed_at ≤ 5) ∧
    ((WF (createOrder ⟨"ORD-1", "W", none⟩ 1 wAdmin 5 wDb0).2 ∧
      StatusInv (createOrder ⟨"ORD-1", "W", none⟩ 1 wAdmin 5 wDb0).2) ∧
    (WF (updateStatus 1 ⟨.shipped, none⟩ wAdmin 5 wDb0).2 ∧
      StatusInv (updateStatus 1 ⟨.shipped, none⟩ wAdmin 5 wDb0).2)) :=
  ⟨by decide, by decide, by decide,
   current_status_matches_latest_history wDb0 (by decide) (by decide) 5
     (by decide) ⟨"ORD-1", "W", none⟩ 1 wAdmin 1 ⟨.shipped, none⟩ wAdmin⟩

/-- Shape of the committed state of a successful `update_status` call:
the order row with the requested id carries the requested status, and the
appended history row records it. -/
theorem updateStatus_commit_shape (db : DB) (order : Order) (oid : Nat)
    (s : OrderStatus) (note : Option String) (aid : Nat) (t ua : Nat)
    (hfind : findOrder db oid = some order) (db' : DB)
    (hdb : db' = DB.mk db.users
      (db.orders.map (fun o => if o.id == oid then
        { order with current_status := s, updated_at := ua } else o))
      (db.history ++ [OrderStatusHistory.mk db.nextHistoryId order.id
        (some order.current_status) s (some aid) note t])
      db.prefs db.nextUserId db.nextOrderId (db.nextHistoryId + 1)
      db.nextPrefId) :
    (∃ o', findOrder db' oid = some o' ∧ o'.current_status = s) ∧
    (∃ h ∈ db'.history, h.order_id = oid ∧ h.new_status = s ∧
      h.changed_by_user_id = some aid ∧ h.note = note ∧ h.changed_at = t) := by
  subst hdb
  have hoid : order.id = oid := by simpa using List.find?_some hfind
  constructor
  · have hp : ∀ x : Order,
        ((if x.id == oid then
          { order with current_status := s, updated_at := ua } else x).id
            == oid) = (x.id == oid) := by
      intro x
      by_cases hxid : x.id = oid
      · rw [if_pos (beq_iff_eq.2 hxid)]
        simp only [hoid, hxid]
      · rw [if_neg (by simpa using hxid)]
    unfold findOrder
    dsimp only
    rw [find?_map_of_pred_stable _ _ hp db.orders]
    rw [show db.orders.find? (fun o => o.id == oid) = some order from hfind]
    rw [Option.map_some']
    rw [if_pos (beq_iff_eq.2 hoid)]
    exact ⟨_, rfl, rfl⟩
  · refine ⟨OrderStatusHistory.mk db.nextHistoryId order.id
      (some order.current_status) s (some aid) note t, ?_, hoid, rfl, rfl,
      rfl, rfl⟩
    exact List.mem_append_right _ (List.mem_singleton.2 rfl)

/-- C2: `update_status` is atomic. For every call, either the request
succeeds and both the order's new `current_status` and the matching
appended history row are present in the committed state, or the request
fails and the state is exactly the pre-request state (the request-scoped
transaction commits on success and rolls back on any error); no outcome
persists one write without the other. -/
theorem update_status_atomic (db : DB) (oid : Nat)
    (p : OrderStatusUpdateRequest) (actor : User) (t : Nat) :
    (∃ resp, (updateStatus oid p actor t db).1 = .ok resp ∧
      (∃ o', findOrder (updateStatus oid p actor t db).2 oid = some o' ∧
        o'.current_status = p.new_status) ∧
      (∃ h ∈ (updateStatus oid p actor t db).2.history, h.order_id = oid ∧
        h.new_status = p.new_status ∧ h.changed_by_user_id = some actor.id ∧
        h.note = p.note ∧ h.changed_at = t)) ∨
    ((∃ e, (updateStatus oid p actor t db).1 = .error e) ∧
      (updateStatus oid p actor t db).2 = db) := by
  unfold updateStatus runTransaction
  cases hbody : updateStatusBody oid p actor t db with
  | error e => exact Or.inr ⟨⟨e, rfl⟩, rfl⟩
  | ok v =>
    obtain ⟨db2, resp⟩ := v
    dsimp only
    refine Or.inl ⟨resp, rfl, ?_⟩
    unfold updateStatusBody at hbody
    split at hbody
    · exact absurd hbody (by simp)
    · split at hbody
      · exact absurd hbody (by simp)
      · rename_i order hfind
        simp only [] at hbody
        split at hbody
        · split at hbody
          · simp only [Except.ok.injEq, Prod.mk.injEq] at hbody
            obtain ⟨hdb, -⟩ := hbody
            exact updateStatus_commit_shape db order oid p.new_status p.note
              actor.id t order.updated_at hfind db2 hdb.symm
          · exact absurd hbody (by simp)
        · split at hbody
          · simp only [Except.ok.injEq, Prod.mk.injEq] at hbody
            obtain ⟨hdb, -⟩ := hbody
            exact updateStatus_commit_shape db order oid p.new_status p.note
              actor.id t t hfind db2 hdb.symm
          · exact absurd hbody (by simp)

/-- C3: a customer can never fetch, modify, or list an order of another
user: `get_order` and `update_order` on an order whose `user_id` differs
from the caller's id fail with 403 Forbidden and leave the state
unchanged, and `list_orders` never includes that order; an admin caller
has no such restriction (`get_order` and `update_order` succeed, and the
admin listing contains every order). -/
theorem customer_scoping (db : DB)
    (hn : (db.orders.map Order.id).Nodup)
    (u : User) (hu : u.role = UserRole.customer)
    (o : Order) (ho : o ∈ db.orders) (hne : o.user_id ≠ u.id)
    (q : OrderUpdateRequest) (t : Nat)
    (a : User) (ha : a.role = UserRole.admin) :
    (getOrder o.id u db =
      (.error (.forbidden "Not authorized to view this order"), db)) ∧
    (updateOrder o.id q u t db = (.error (.forbidden "Not authorized"), db)) ∧
    (∀ L, (listOrders u db).1 = .ok L → orderToResponse o ∉ L) ∧
    (∃ resp, (getOrder o.id a db).1 = .ok resp) ∧
    (∃ resp, (updateOrder o.id q a t db).1 = .ok resp) ∧
    (∀ L, (listOrders a db).1 = .ok L →
      ∀ o' ∈ db.orders, orderToResponse o' ∈ L) := by
  have hfind : findOrder db o.id = some o := find?_key_eq_some_of_mem Order.id ho hn
  have hurole : u.role ≠ UserRole.admin := by rw [hu]; decide
  refine ⟨?_, ?_, ?_, ?_, ?_, ?_⟩
  · unfold getOrder runTransaction getOrderBody
    rw [hfind]
    dsimp only
    rw [if_pos (⟨hurole, hne⟩ : u.role ≠ UserRole.admin ∧ o.user_id ≠ u.id)]
  · unfold updateOrder runTransaction updateOrderBody
    rw [hfind]
    dsimp only
    rw [if_pos (⟨hurole, hne⟩ : u.role ≠ UserRole.admin ∧ o.user_id ≠ u.id)]
  · unfold listOrders runTransaction listOrdersBody
    rw [if_neg (by rw [hu]; decide)]
    dsimp only
    intro L hL
    rw [Except.ok.injEq] at hL
    subst hL
    intro hmem
    obtain ⟨x, hx, heq⟩ := List.mem_map.1 hmem
    rw [List.mem_insertionSort] at hx
    have hxu : x.user_id = u.id := by
      have := (List.mem_filter.1 hx).2
      simpa using this
    have : x.user_id = o.user_id := congrArg OrderResponse.user_id heq
    exact hne (this ▸ hxu)
  · unfold getOrder runTransaction getOrderBody
    rw [hfind]
    dsimp only
    rw [if_neg (fun hc => hc.1 ha)]
    exact ⟨_, rfl⟩
  · unfold updateOrder runTransaction updateOrderBody
    rw [hfind]
    dsimp only
    rw [if_neg (fun hc => hc.1 ha)]
    exact ⟨_, rfl⟩
  · unfold listOrders runTransaction listOrdersBody
    rw [if_pos ha]
    dsimp only
    intro L hL
    rw [Except.ok.injEq] at hL
    subst hL
    intro o' ho'
    exact List.mem_map_of_mem orderToResponse
      ((List.mem_insertionSort createdAtDesc).2 ho')

/-- Closed witness for C3: customer `wCustomer` (id 7) against the order
of `wOwner` (id 8) in `wDb3`, with `wAdmin` as the unrestricted admin. -/
theorem customer_scoping_witness :
    (wDb3.orders.map Order.id).Nodup ∧
    wCustomer.role = UserRole.customer ∧
    wOrder ∈ wDb3.orders ∧ wOrder.user_id ≠ wCustomer.id ∧
    wAdmin.role = UserRole.admin ∧
    ((getOrder wOrder.id wCustomer wDb3 =
      (.error (.forbidden "Not authorized to view this order"), wDb3)) ∧
    (updateOrder wOrder.id ⟨some "X", none⟩ wCustomer 9 wDb3 =
      (.error (.forbidden "Not authorized"), wDb3)) ∧
    (∀ L, (listOrders wCustomer wDb3).1 = .ok L →
      orderToResponse wOrder ∉ L) ∧
    (∃ resp, (getOrder wOrder.id wAdmin wDb3).1 = .ok resp) ∧
    (∃ resp, (updateOrder wOrder.id ⟨some "X", none⟩ wAdmin 9 wDb3).1 =
      .ok resp) ∧
    (∀ L, (listOrders wAdmin wDb3).1 = .ok L →
      ∀ o' ∈ wDb3.orders, orderToResponse o' ∈ L)) :=
  ⟨by decide, by decide, by decide, by decide, by decide,
   customer_scoping wDb3 (by decide) wCustomer (by decide) wOrder (by decide)
     (by decide) ⟨some "X", none⟩ 9 wAdmin (by decide)⟩

/-- C4 (refuted — code bug): the history query of `lookup_by_number` has
no `order_by`, so the store may return the rows of an order in any
order. At the reachable state `wDb2` (two history rows with equal
`changed_at`), the fetch order `[wRow2, wRow1]` is a legal permutation of
the matching rows, yet the lookup response's history differs from the
`(changed_at, id)`-ordered history that `get_order` returns for the same
order, contradicting the claim that the two paths agree. -/
theorem lookup_by_number_unordered_cex :
    [wRow2, wRow1].Perm
      (wDb2.history.filter (fun h => h.order_id == 1)) ∧
    (lookupByNumber "ORD-1" wAdmin [wRow2, wRow1] wDb2).1 =
      .ok (detailResponse ⟨1, "ORD-1", 1, "Widget", none, .shipped, 1, 1⟩
        [wRow2, wRow1]) ∧
    (getOrder 1 wAdmin wDb2).1 =
      .ok (detailResponse ⟨1, "ORD-1", 1, "Widget", none, .shipped, 1, 1⟩
        [wRow1, wRow2]) ∧
    (detailResponse ⟨1, "ORD-1", 1, "Widget", none, .shipped, 1, 1⟩
        [wRow2, wRow1]).history ≠
      (detailResponse ⟨1, "ORD-1", 1, "Widget", none, .shipped, 1, 1⟩
        [wRow1, wRow2]).history :=
  ⟨by decide, by decide, by decide, by decide⟩

/-- An admin `create_order` call whose `order_number` already exists
fails with 409 Conflict and leaves the state unchanged. -/
theorem createOrder_conflict_of_dup (db : DB) (p : OrderCreateRequest)
    (uid : Nat) (actor : User) (t : Nat) (ha : actor.role = UserRole.admin)
    (hdup : ∃ o ∈ db.orders, o.order_number = p.order_number) :
    createOrder p uid actor t db =
      (.error (.conflict "Order number already exists"), db) := by
  obtain ⟨o, ho, hnum⟩ := hdup
  have hbad : ¬ (orderInsertOk db (Order.mk db.nextOrderId p.order_number
      uid p.title p.description .created t t) = true) := by
    unfold orderInsertOk
    rw [Bool.and_eq_true]
    rintro ⟨hall, -⟩
    have := List.all_eq_true.1 hall o ho
    simp [hnum] at this
  unfold createOrder runTransaction createOrderBody
  rw [if_neg (by rw [ha]; decide)]
  dsimp only
  rw [if_neg hbad]

/-- An admin `create_order` call whose `user_id` references no stored
user also fails with the same 409 Conflict (the foreign-key violation is
caught by the same `IntegrityError` handler) and leaves the state
unchanged. -/
theorem createOrder_conflict_of_no_user (db : DB) (p : OrderCreateRequest)
    (uid : Nat) (actor : User) (t : Nat) (ha : actor.role = UserRole.admin)
    (hno : ∀ u ∈ db.users, u.id ≠ uid) :
    createOrder p uid actor t db =
      (.error (.conflict "Order number already exists"), db) := by
  have hbad : ¬ (orderInsertOk db (Order.mk db.nextOrderId p.order_number
      uid p.title p.description .created t t) = true) := by
    unfold orderInsertOk
    rw [Bool.and_eq_true]
    rintro ⟨-, hany⟩
    obtain ⟨u, hu, hbeq⟩ := List.any_eq_true.1 hany
    exact hno u hu (by simpa using hbeq)
  unfold createOrder runTransaction createOrderBody
  rw [if_neg (by rw [ha]; decide)]
  dsimp only
  rw [if_neg hbad]

/-- A permitted admin `create_order` call with a fresh `order_number` and
an existing owner succeeds: it inserts exactly the new order with
`current_status = created` and appends exactly one history row with
`old_status = null`, `new_status = created`,
`changed_by_user_id = null`. -/
theorem createOrder_success_shape (db : DB) (p : OrderCreateRequest)
    (uid : Nat) (actor : User) (t : Nat) (ha : actor.role = UserRole.admin)
    (hfresh : ∀ o ∈ db.orders, o.order_number ≠ p.order_number)
    (huser : ∃ u ∈ db.users, u.id = uid) :
    (createOrder p uid actor t db).1 =
      .ok (orderToResponse (Order.mk db.nextOrderId p.order_number uid
        p.title p.description .created t t)) ∧
    (createOrder p uid actor t db).2.orders =
      db.orders ++ [Order.mk db.nextOrderId p.order_number uid p.title
        p.description .created t t] ∧
    (createOrder p uid actor t db).2.history =
      db.history ++ [OrderStatusHistory.mk db.nextHistoryId db.nextOrderId
        none .created none none t] := by
  have hok : orderInsertOk db (Order.mk db.nextOrderId p.order_number uid
      p.title p.description .created t t) = true := by
    unfold orderInsertOk
    rw [Bool.and_eq_true]
    constructor
    · rw [List.all_eq_true]
      intro o ho
      simpa using hfresh o ho
    · obtain ⟨u, hu, huid⟩ := huser
      rw [List.any_eq_true]
      exact ⟨u, hu, by simpa using huid⟩
  have hhok : historyInsertOk (DB.mk db.users
      (db.orders ++ [Order.mk db.nextOrderId p.order_number uid p.title
        p.description .created t t])
      db.history db.prefs db.nextUserId (db.nextOrderId + 1)
      db.nextHistoryId db.nextPrefId)
      (OrderStatusHistory.mk db.nextHistoryId db.nextOrderId none .created
        none none t) = true := by
    unfold historyInsertOk
    rw [Bool.and_eq_true]
    refine ⟨?_, rfl⟩
    rw [List.any_eq_true]
    refine ⟨Order.mk db.nextOrderId p.order_number uid p.title
      p.description .created t t, ?_, by simp⟩
    exact List.mem_append_right _ (List.mem_singleton.2 rfl)
  unfold createOrder runTransaction createOrderBody
  rw [if_neg (by rw [ha]; decide)]
  dsimp only
  rw [if_pos hok, if_pos hhok]
  exact ⟨rfl, rfl, rfl⟩

/-- C5 (amended): admin `create_order` fails with 409 Conflict and
persists nothing when the `order_number` already exists — and likewise
when `user_id` references no stored user, since the storage-layer
`IntegrityError` (unique or foreign-key violation) is uniformly reported
as "Order number already exists"; otherwise it inserts the order with
`current_status = created`, appends exactly one history row
`(old_status = null, new_status = created, changed_by_user_id = null)`,
and any second creation with the same `order_number` then fails with
Conflict. -/
theorem create_order_conflict_semantics (db : DB)
    (p : OrderCreateRequest) (uid : Nat) (actor : User) (t : Nat)
    (ha : actor.role = UserRole.admin) :
    ((∃ o ∈ db.orders, o.order_number = p.order_number) →
      createOrder p uid actor t db =
        (.error (.conflict "Order number already exists"), db)) ∧
    ((∀ u ∈ db.users, u.id ≠ uid) →
      createOrder p uid actor t db =
        (.error (.conflict "Order number already exists"), db)) ∧
    ((∀ o ∈ db.orders, o.order_number ≠ p.order_number) →
      (∃ u ∈ db.users, u.id = uid) →
      (createOrder p uid actor t db).1 =
        .ok (orderToResponse (Order.mk db.nextOrderId p.order_number uid
          p.title p.description .created t t)) ∧
      (createOrder p uid actor t db).2.orders =
        db.orders ++ [Order.mk db.nextOrderId p.order_number uid p.title
          p.description .created t t] ∧
      (createOrder p uid actor t db).2.history =
        db.history ++ [OrderStatusHistory.mk db.nextHistoryId
          db.nextOrderId none .created none none t] ∧
      (∀ (p₂ : OrderCreateRequest) (uid₂ : Nat) (actor₂ : User) (t₂ : Nat),
        actor₂.role = UserRole.admin → p₂.order_number = p.order_number →
        createOrder p₂ uid₂ actor₂ t₂ (createOrder p uid actor t db).2 =
          (.error (.conflict "Order number already exists"),
            (createOrder p uid actor t db).2))) := by
  refine ⟨fun hdup => createOrder_conflict_of_dup db p uid actor t ha hdup,
    fun hno => createOrder_conflict_of_no_user db p uid actor t ha hno,
    fun hfresh huser => ?_⟩
  obtain ⟨h1, h2, h3⟩ := createOrder_success_shape db p uid actor t ha
    hfresh huser
  refine ⟨h1, h2, h3, fun p₂ uid₂ actor₂ t₂ ha₂ hnum₂ => ?_⟩
  refine createOrder_conflict_of_dup _ p₂ uid₂ actor₂ t₂ ha₂ ?_
  refine ⟨Order.mk db.nextOrderId p.order_number uid p.title p.description
    .created t t, ?_, hnum₂.symm⟩
  rw [h2]
  exact List.mem_append_right _ (List.mem_singleton.2 rfl)

/-- Counterexample for C5 as frozen: in `wDb0` no order has number
"ORD-9", yet an admin creation for the nonexistent user 2 fails with 409
Conflict and persists nothing, where the claim requires a successful
insert whenever the `order_number` is not already taken. -/
theorem create_order_conflict_claim_cex :
    wAdmin.role = UserRole.admin ∧
    (∀ o ∈ wDb0.orders, o.order_number ≠ "ORD-9") ∧
    createOrder ⟨"ORD-9", "T", none⟩ 2 wAdmin 0 wDb0 =
      (.error (.conflict "Order number already exists"), wDb0) :=
  ⟨by decide, by decide, by decide⟩

/-- Closed witness for C5 (amended) at `wDb0` with the admin creating
"ORD-1" for the existing user 1. -/
theorem create_order_conflict_semantics_witness :
    wAdmin.role = UserRole.admin ∧
    (((∃ o ∈ wDb0.orders, o.order_number = "ORD-1") →
      createOrder ⟨"ORD-1", "W", none⟩ 1 wAdmin 3 wDb0 =
        (.error (.conflict "Order number already exists"), wDb0)) ∧
    ((∀ u ∈ wDb0.users, u.id ≠ 1) →
      createOrder ⟨"ORD-1", "W", none⟩ 1 wAdmin 3 wDb0 =
        (.error (.conflict "Order number already exists"), wDb0)) ∧
    ((∀ o ∈ wDb0.orders, o.order_number ≠ "ORD-1") →
      (∃ u ∈ wDb0.users, u.id = 1) →
      (createOrder ⟨"ORD-1", "W", none⟩ 1 wAdmin 3 wDb0).1 =
        .ok (orderToResponse (Order.mk wDb0.nextOrderId "ORD-1" 1 "W" none
          .created 3 3)) ∧
      (createOrder ⟨"ORD-1", "W", none⟩ 1 wAdmin 3 wDb0).2.orders =
        wDb0.orders ++ [Order.mk wDb0.nextOrderId "ORD-1" 1 "W" none
          .created 3 3] ∧
      (createOrder ⟨"ORD-1", "W", none⟩ 1 wAdmin 3 wDb0).2.history =
        wDb0.history ++ [OrderStatusHistory.mk wDb0.nextHistoryId
          wDb0.nextOrderId none .created none none 3] ∧
      (∀ (p₂ : OrderCreateRequest) (uid₂ : Nat) (actor₂ : User) (t₂ : Nat),
        actor₂.role = UserRole.admin → p₂.order_number = "ORD-1" →
        createOrder p₂ uid₂ actor₂ t₂
            (createOrder ⟨"ORD-1", "W", none⟩ 1 wAdmin 3 wDb0).2 =
          (.error (.conflict "Order number already exists"),
            (createOrder ⟨"ORD-1", "W", none⟩ 1 wAdmin 3 wDb0).2)))) :=
  ⟨by decide, create_order_conflict_semantics wDb0 ⟨"ORD-1", "W", none⟩ 1
    wAdmin 3 (by decide)⟩

/-- C6: for every input credential, the authorization gate either
returns an active stored user or fails with Unauthenticated (401), and
with no other kind of error: an absent (or empty) credential fails with
"Not authenticated", any decode/validation failure fails with
"Invalid token", and a decoded subject whose user is missing or inactive
fails with "User not found or inactive". The hypothesis `hdec` states
that decodable tokens carry the issuer's subject format (a non-empty
decimal numeral, as written by `create_access_token` via
`str(user.id)`) — only tokens signed with the server secret decode. -/
theorem auth_gate_unauthenticated_only (db : DB)
    (decode : String → Option TokenClaims)
    (hdec : ∀ c p, decode c = some p →
      ∃ uid : Nat, decimalToNat? p.sub = some uid ∧ p.sub ≠ "")
    (cred : Option String) :
    ((∃ u, getCurrentUser db decode cred = .ok u ∧ u ∈ db.users ∧
        u.is_active = true) ∨
      (∃ msg, getCurrentUser db decode cred =
        .error (.unauthenticated msg))) ∧
    (cred = none → getCurrentUser db decode cred =
      .error (.unauthenticated "Not authenticated")) ∧
    (∀ c, cred = some c → c ≠ "" → decode c = none →
      getCurrentUser db decode cred =
        .error (.unauthenticated "Invalid token")) ∧
    (∀ c p uid, cred = some c → c ≠ "" → decode c = some p →
      decimalToNat? p.sub = some uid →
      (∀ u ∈ db.users, u.id = uid → u.is_active = false) →
      getCurrentUser db decode cred =
        .error (.unauthenticated "User not found or inactive")) := by
  refine ⟨?_, ?_, ?_, ?_⟩
  · cases cred with
    | none => exact Or.inr ⟨_, rfl⟩
    | some c =>
      unfold getCurrentUser
      dsimp only
      by_cases hc0 : c = ""
      · rw [if_pos hc0]
        exact Or.inr ⟨_, rfl⟩
      · rw [if_neg hc0]
        cases hdecode : decode c with
        | none => exact Or.inr ⟨_, rfl⟩
        | some p =>
          obtain ⟨uid, hparse, hsub⟩ := hdec c p hdecode
          dsimp only
          rw [if_neg hsub, hparse]
          dsimp only
          cases hfind : db.users.find? (fun u => u.id == uid) with
          | none => exact Or.inr ⟨_, rfl⟩
          | some u =>
            dsimp only
            by_cases hact : u.is_active
            · rw [if_pos hact]
              exact Or.inl ⟨u, rfl, List.mem_of_find?_eq_some hfind, hact⟩
            · rw [if_neg hact]
              exact Or.inr ⟨_, rfl⟩
  · intro h
    subst h
    rfl
  · intro c hc hne hdecode
    subst hc
    unfold getCurrentUser
    dsimp only
    rw [if_neg hne, hdecode]
  · intro c p uid hc hne hdecode hparse hall
    subst hc
    obtain ⟨uid', hparse', hsub⟩ := hdec c p hdecode
    unfold getCurrentUser
    dsimp only
    rw [if_neg hne, hdecode]
    dsimp only
    rw [if_neg hsub, hparse]
    dsimp only
    cases hfind : db.users.find? (fun u => u.id == uid) with
    | none => rfl
    | some u =>
      dsimp only
      have hu : u.id = uid := by simpa using List.find?_some hfind
      have hinact : u.is_active = false :=
        hall u (List.mem_of_find?_eq_some hfind) hu
      rw [if_neg (by rw [hinact]; decide)]

/-- Closed witness for C6: `wDb0` with a decode function accepting the
single token "good" carrying subject "1" (the stored admin). -/
theorem auth_gate_unauthenticated_only_witness :
    (∀ c p, (fun c => if c = "good" then
        some (TokenClaims.mk "1" "admin") else none) c = some p →
      ∃ uid : Nat, decimalToNat? p.sub = some uid ∧ p.sub ≠ "") ∧
    (((∃ u, getCurrentUser wDb0 (fun c => if c = "good" then
        some (TokenClaims.mk "1" "admin") else none) (some "good") =
          .ok u ∧ u ∈ wDb0.users ∧ u.is_active = true) ∨
      (∃ msg, getCurrentUser wDb0 (fun c => if c = "good" then
        some (TokenClaims.mk "1" "admin") else none) (some "good") =
          .error (.unauthenticated msg))) ∧
    (some "good" = none → getCurrentUser wDb0 (fun c => if c = "good" then
        some (TokenClaims.mk "1" "admin") else none) (some "good") =
      .error (.unauthenticated "Not authenticated")) ∧
    (∀ c, some "good" = some c → c ≠ "" →
      (fun c => if c = "good" then
        some (TokenClaims.mk "1" "admin") else none) c = none →
      getCurrentUser wDb0 (fun c => if c = "good" then
        some (TokenClaims.mk "1" "admin") else none) (some "good") =
        .error (.unauthenticated "Invalid token")) ∧
    (∀ c p uid, some "good" = some c → c ≠ "" →
      (fun c => if c = "good" then
        some (TokenClaims.mk "1" "admin") else none) c = some p →
      decimalToNat? p.sub = some uid →
      (∀ u ∈ wDb0.users, u.id = uid → u.is_active = false) →
      getCurrentUser wDb0 (fun c => if c = "good" then
        some (TokenClaims.mk "1" "admin") else none) (some "good") =
        .error (.unauthenticated "User not found or inactive"))) := by
  have hdec : ∀ c p, (fun c => if c = "good" then
      some (TokenClaims.mk "1" "admin") else none) c = some p →
      ∃ uid : Nat, decimalToNat? p.sub = some uid ∧ p.sub ≠ "" := by
    intro c p h
    dsimp only at h
    by_cases hc : c = "good"
    · rw [if_pos hc] at h
      cases h
      exact ⟨1, by decide, by decide⟩
    · rw [if_neg hc] at h
      cases h
  exact ⟨hdec, auth_gate_unauthenticated_only wDb0 _ hdec (some "good")⟩

/-- C7: an admin `update_status` call on an existing order always
succeeds, for every pair of old and requested status (no-op and
backwards transitions included): it sets `current_status` to the
requested status (bumping `updated_at` exactly when the value changed)
and appends one history row whose `old_status` is the status read before
the write, whose `new_status` is the requested status, whose
`changed_by_user_id` is the acting admin's id and whose `note` is the
given optional note. -/
theorem update_status_behavior (db : DB)
    (hn : (db.orders.map Order.id).Nodup)
    (o : Order) (ho : o ∈ db.orders)
    (admin : User) (ha : admin.role = UserRole.admin)
    (hm : admin ∈ db.users)
    (s : OrderStatus) (note : Option String) (t : Nat) :
    (∃ resp, (updateStatus o.id ⟨s, note⟩ admin t db).1 = .ok resp) ∧
    findOrder (updateStatus o.id ⟨s, note⟩ admin t db).2 o.id =
      some
        { o with
          current_status := s
          updated_at := if o.current_status = s then o.updated_at else t } ∧
    (updateStatus o.id ⟨s, note⟩ admin t db).2.history =
      db.history ++ [OrderStatusHistory.mk db.nextHistoryId o.id
        (some o.current_status) s (some admin.id) note t] := by
  have hfind : findOrder db o.id = some o :=
    find?_key_eq_some_of_mem Order.id ho hn
  have hhist : historyInsertOk (DB.mk db.users
      (db.orders.map (fun x => if x.id == o.id then
        { o with
          current_status := s
          updated_at := if o.current_status = s then o.updated_at else t }
        else x))
      db.history db.prefs db.nextUserId db.nextOrderId db.nextHistoryId
      db.nextPrefId)
      (OrderStatusHistory.mk db.nextHistoryId o.id (some o.current_status) s
        (some admin.id) note t) = true := by
    unfold historyInsertOk
    rw [Bool.and_eq_true]
    constructor
    · rw [List.any_eq_true]
      refine ⟨_, List.mem_map_of_mem _ ho, ?_⟩
      simp
    · rw [List.any_eq_true]
      exact ⟨admin, hm, by simp⟩
  unfold updateStatus runTransaction updateStatusBody
  rw [if_neg (by rw [ha]; decide)]
  rw [hfind]
  dsimp only
  rw [if_pos hhist]
  dsimp only
  refine ⟨⟨_, rfl⟩, ?_, rfl⟩
  have hp : ∀ x : Order,
      ((if x.id == o.id then
        { o with
          current_status := s
          updated_at := if o.current_status = s then o.updated_at else t }
        else x).id == o.id) = (x.id == o.id) := by
    intro x
    by_cases hxid : x.id = o.id
    · rw [if_pos (beq_iff_eq.2 hxid)]
      simp [hxid]
    · rw [if_neg (by simpa using hxid)]
  unfold findOrder
  dsimp only
  rw [find?_map_of_pred_stable _ _ hp db.orders]
  rw [show db.orders.find? (fun x => x.id == o.id) = some o from hfind]
  rw [Option.map_some']
  rw [if_pos (beq_iff_eq.2 rfl)]

/-- Closed witness for C7 in `wDb3`: the admin marks the owner's order
processing with a note. -/
theorem update_status_behavior_witness :
    (wDb3.orders.map Order.id).Nodup ∧ wOrder ∈ wDb3.orders ∧
    wAdmin.role = UserRole.admin ∧ wAdmin ∈ wDb3.users ∧
    ((∃ resp,
      (updateStatus wOrder.id ⟨.processing, some "n"⟩ wAdmin 4 wDb3).1 =
        .ok resp) ∧
    findOrder (updateStatus wOrder.id ⟨.processing, some "n"⟩ wAdmin 4
        wDb3).2 wOrder.id =
      some
        { wOrder with
          current_status := .processing
          updated_at := if wOrder.current_status = .processing then
            wOrder.updated_at else 4 } ∧
    (updateStatus wOrder.id ⟨.processing, some "n"⟩ wAdmin 4 wDb3).2.history =
      wDb3.history ++ [OrderStatusHistory.mk wDb3.nextHistoryId wOrder.id
        (some wOrder.current_status) .processing (some wAdmin.id)
        (some "n") 4]) :=
  ⟨by decide, by decide, by decide, by decide,
   update_status_behavior wDb3 (by decide) wOrder (by decide) wAdmin
     (by decide) (by decide) .processing (some "n") 4⟩

/-- C8 (amended): a permitted `update_order` call is a partial patch: a
null `title` leaves the title unchanged and a null `description` leaves
the description unchanged, only non-null fields overwrite, all other
order fields are unchanged (visible in the record update), and
`updated_at` is bumped exactly when at least one provided field differs
from the stored value (the unit of work emits no UPDATE when there is no
net change, so a call that changes nothing leaves `updated_at` as it
was); the other tables are untouched. -/
theorem update_details_patch (db : DB)
    (hn : (db.orders.map Order.id).Nodup)
    (o : Order) (ho : o ∈ db.orders)
    (user : User) (hperm : user.role = UserRole.admin ∨ o.user_id = user.id)
    (p : OrderUpdateRequest) (t : Nat) :
    (∃ resp, (updateOrder o.id p user t db).1 = .ok resp) ∧
    findOrder (updateOrder o.id p user t db).2 o.id =
      some
        { o with
          title := p.title.getD o.title
          description := p.description.or o.description
          updated_at := if (p.title.getD o.title ≠ o.title ∨
              p.description.or o.description ≠ o.description) then t
            else o.updated_at } ∧
    (updateOrder o.id p user t db).2.users = db.users ∧
    (updateOrder o.id p user t db).2.history = db.history ∧
    (updateOrder o.id p user t db).2.prefs = db.prefs := by
  have hfind : findOrder db o.id = some o :=
    find?_key_eq_some_of_mem Order.id ho hn
  have hcond : ¬ (user.role ≠ UserRole.admin ∧ o.user_id ≠ user.id) := by
    rintro ⟨h1, h2⟩
    rcases hperm with hperm | hperm
    · exact h1 hperm
    · exact h2 hperm
  unfold updateOrder runTransaction updateOrderBody
  rw [hfind]
  dsimp only
  rw [if_neg hcond]
  dsimp only
  refine ⟨⟨_, rfl⟩, ?_, rfl, rfl, rfl⟩
  have hp : ∀ x : Order,
      ((if x.id == o.id then
        { o with
          title := p.title.getD o.title
          description := p.description.or o.description
          updated_at := if (p.title.getD o.title ≠ o.title ∨
              p.description.or o.description ≠ o.description) then t
            else o.updated_at }
        else x).id == o.id) = (x.id == o.id) := by
    intro x
    by_cases hxid : x.id = o.id
    · rw [if_pos (beq_iff_eq.2 hxid)]
      simp [hxid]
    · rw [if_neg (by simpa using hxid)]
  unfold findOrder
  dsimp only
  rw [find?_map_of_pred_stable _ _ hp db.orders]
  rw [show db.orders.find? (fun x => x.id == o.id) = some o from hfind]
  rw [Option.map_some']
  rw [if_pos (beq_iff_eq.2 rfl)]

/-- Counterexample for C8 as frozen: the owner's permitted
`update_order` call with both fields null succeeds but does not bump
`updated_at` (no attribute changed, so the unit of work emits no UPDATE
and the `onupdate` column is untouched), where the claim requires every
permitted call to bump it. -/
theorem update_details_no_bump_cex :
    wOrder ∈ wDb3.orders ∧ wOrder.user_id = wOwner.id ∧
    (∃ resp, (updateOrder wOrder.id ⟨none, none⟩ wOwner 5 wDb3).1 =
      .ok resp) ∧
    findOrder (updateOrder wOrder.id ⟨none, none⟩ wOwner 5 wDb3).2
      wOrder.id = some wOrder ∧
    wOrder.updated_at = 0 ∧ wOrder.updated_at ≠ 5 :=
  ⟨by decide, by decide, ⟨orderToResponse wOrder, by decide⟩, by decide,
   by decide, by decide⟩

/-- Closed witness for C8 (amended): the owner renames their order in
`wDb3` at transaction time 6. -/
theorem update_details_patch_witness :
    (wDb3.orders.map Order.id).Nodup ∧ wOrder ∈ wDb3.orders ∧
    (wOwner.role = UserRole.admin ∨ wOrder.user_id = wOwner.id) ∧
    ((∃ resp, (updateOrder wOrder.id ⟨some "New", none⟩ wOwner 6 wDb3).1 =
      .ok resp) ∧
    findOrder (updateOrder wOrder.id ⟨some "New", none⟩ wOwner 6 wDb3).2
        wOrder.id =
      some
        { wOrder with
          title := (some "New").getD wOrder.title
          description := Option.or none wOrder.description
          updated_at := if ((some "New").getD wOrder.title ≠ wOrder.title ∨
              Option.or none wOrder.description ≠ wOrder.description) then 6
            else wOrder.updated_at } ∧
    (updateOrder wOrder.id ⟨some "New", none⟩ wOwner 6 wDb3).2.users =
      wDb3.users ∧
    (updateOrder wOrder.id ⟨some "New", none⟩ wOwner 6 wDb3).2.history =
      wDb3.history ∧
    (updateOrder wOrder.id ⟨some "New", none⟩ wOwner 6 wDb3).2.prefs =
      wDb3.prefs) :=
  ⟨by decide, by decide, by decide,
   update_details_patch wDb3 (by decide) wOrder (by decide) wOwner
     (by decide) ⟨some "New", none⟩ 6⟩

/-- C9: preference upsert is a full replace except for `email`: on a
user with an existing preference row, the resulting row's `enabled`,
`channel`, `phone` and `push_token` equal the request values (an omitted
`phone` or `push_token` is cleared to null), while the resulting `email`
is the request's email when given and the previously stored one when
omitted; when no row exists one is created first and then carries the
request values (`email` exactly as sent, null when omitted). -/
theorem upsert_preferences_replace_except_email (db : DB)
    (hup : (db.prefs.map NotificationPreference.user_id).Nodup)
    (user : User) (hm : user ∈ db.users)
    (p : NotificationPreferenceUpsertRequest) (t : Nat) :
    (∀ pr ∈ db.prefs, pr.user_id = user.id →
      (∃ resp, (upsertPreferences p user t db).1 = .ok resp) ∧
      (∃ pr', findPref (upsertPreferences p user t db).2 user.id = some pr' ∧
        pr'.enabled = p.enabled ∧ pr'.channel = p.channel ∧
        pr'.phone = p.phone ∧ pr'.push_token = p.push_token ∧
        pr'.email = p.email.or pr.email)) ∧
    ((∀ pr ∈ db.prefs, pr.user_id ≠ user.id) →
      (∃ resp, (upsertPreferences p user t db).1 = .ok resp) ∧
      (∃ pr', findPref (upsertPreferences p user t db).2 user.id = some pr' ∧
        pr'.enabled = p.enabled ∧ pr'.channel = p.channel ∧
        pr'.phone = p.phone ∧ pr'.push_token = p.push_token ∧
        pr'.email = p.email)) := by
  constructor
  · intro pr hpr hpu
    have hfind : findPref db user.id = some pr :=
      find?_key_eq_some_of_mem_of_eq NotificationPreference.user_id hpr
        hpu hup
    have hp : ∀ q : NotificationPreference,
        ((if q.user_id == user.id then applyPrefAssign pr p t else q).user_id
          == user.id) = (q.user_id == user.id) := by
      intro q
      by_cases hq : q.user_id = user.id
      · rw [if_pos (beq_iff_eq.2 hq)]
        have : (applyPrefAssign pr p t).user_id = pr.user_id := rfl
        rw [this]
        simp [hq, hpu]
      · rw [if_neg (by simpa using hq)]
    unfold upsertPreferences runTransaction upsertPreferencesBody
    rw [hfind]
    dsimp only
    refine ⟨⟨_, rfl⟩, ?_⟩
    refine ⟨applyPrefAssign pr p t, ?_, rfl, rfl, rfl, rfl, rfl⟩
    unfold findPref
    dsimp only
    rw [find?_map_of_pred_stable _ _ hp db.prefs]
    rw [show db.prefs.find? (fun q => q.user_id == user.id) = some pr
      from hfind]
    rw [Option.map_some']
    rw [if_pos (beq_iff_eq.2 hpu)]
  · intro hno
    have hfind : findPref db user.id = none := by
      unfold findPref
      rw [List.find?_eq_none]
      intro q hq
      simpa using hno q hq
    have hok : prefInsertOk db (NotificationPreference.mk db.nextPrefId
        user.id true NotificationChannel.email none none none t) = true := by
      unfold prefInsertOk
      rw [Bool.and_eq_true]
      constructor
      · rw [List.all_eq_true]
        intro q hq
        simpa using hno q hq
      · rw [List.any_eq_true]
        exact ⟨user, hm, by simp⟩
    have hp : ∀ q : NotificationPreference,
        ((if q.user_id == user.id then
          applyPrefAssign (NotificationPreference.mk db.nextPrefId user.id
            true NotificationChannel.email none none none t) p t
          else q).user_id == user.id) = (q.user_id == user.id) := by
      intro q
      by_cases hq : q.user_id = user.id
      · rw [if_pos (beq_iff_eq.2 hq)]
        have heq : (applyPrefAssign (NotificationPreference.mk db.nextPrefId
            user.id true NotificationChannel.email none none none t) p
              t).user_id = user.id := rfl
        simp [heq, hq]
      · rw [if_neg (by simpa using hq)]
    unfold upsertPreferences runTransaction upsertPreferencesBody
    rw [hfind]
    dsimp only
    rw [if_pos hok]
    dsimp only
    refine ⟨⟨_, rfl⟩, ?_⟩
    refine ⟨applyPrefAssign (NotificationPreference.mk db.nextPrefId user.id
      true NotificationChannel.email none none none t) p t, ?_, rfl, rfl,
      rfl, rfl, ?_⟩
    · unfold findPref
      dsimp only
      rw [find?_map_of_pred_stable _ _ hp (db.prefs ++ [_])]
      rw [List.find?_append]
      rw [show db.prefs.find? (fun q => q.user_id == user.id) = none
        from hfind]
      rw [List.find?_cons_of_pos _ (by simp)]
      rw [Option.none_or, Option.map_some']
      rw [if_pos (by simp : ((NotificationPreference.mk db.nextPrefId
        user.id true NotificationChannel.email none none none t).user_id
          == user.id) = true)]
    · have : (applyPrefAssign (NotificationPreference.mk db.nextPrefId
        user.id true NotificationChannel.email none none none t) p
          t).email = p.email.or none := rfl
      rw [this, Option.or_none]

/-- Closed witness for C9: the spec's scenario — `wCustomer` upserts
`channel = sms, phone = "+1555"` with no email and no push token on the
stored row `wPref` (`email = "a@b.com"`, old push token). -/
theorem upsert_preferences_replace_except_email_witness :
    (wDb4.prefs.map NotificationPreference.user_id).Nodup ∧
    wCustomer ∈ wDb4.users ∧
    ((∀ pr ∈ wDb4.prefs, pr.user_id = wCustomer.id →
      (∃ resp, (upsertPreferences ⟨true, .sms, none, some "+1555", none⟩
        wCustomer 7 wDb4).1 = .ok resp) ∧
      (∃ pr', findPref (upsertPreferences ⟨true, .sms, none, some "+1555",
          none⟩ wCustomer 7 wDb4).2 wCustomer.id = some pr' ∧
        pr'.enabled = true ∧ pr'.channel = .sms ∧
        pr'.phone = some "+1555" ∧ pr'.push_token = none ∧
        pr'.email = Option.or none pr.email)) ∧
    ((∀ pr ∈ wDb4.prefs, pr.user_id ≠ wCustomer.id) →
      (∃ resp, (upsertPreferences ⟨true, .sms, none, some "+1555", none⟩
        wCustomer 7 wDb4).1 = .ok resp) ∧
      (∃ pr', findPref (upsertPreferences ⟨true, .sms, none, some "+1555",
          none⟩ wCustomer 7 wDb4).2 wCustomer.id = some pr' ∧
        pr'.enabled = true ∧ pr'.channel = .sms ∧
        pr'.phone = some "+1555" ∧ pr'.push_token = none ∧
        pr'.email = none))) :=
  ⟨by decide, by decide,
   upsert_preferences_replace_except_email wDb4 (by decide) wCustomer
     (by decide) ⟨true, .sms, none, some "+1555", none⟩ 7⟩

/-- C10: signup always creates a customer: the created user's role is
`customer` for every request payload, and the handler never reads the
payload's optional `role` field (two payloads differing only in `role`
produce identical outcomes); signup also creates the user's default
notification preference row with `enabled = true`, `channel = email` and
`email` equal to the new user's email address. -/
theorem signup_customer_role_and_default_pref (db : DB) (hwf : WF db)
    (hash : String → String) (p : SignupRequest) (t : Nat)
    (hno : ∀ u ∈ db.users, u.email ≠ p.email) :
    (∃ resp, (signup hash p t db).1 = .ok resp ∧
      resp.role = UserRole.customer) ∧
    (signup hash p t db).2.users = db.users ++
      [User.mk db.nextUserId p.email (hash p.password) UserRole.customer
        true t] ∧
    (signup hash p t db).2.prefs = db.prefs ++
      [NotificationPreference.mk db.nextPrefId db.nextUserId true
        NotificationChannel.email (some p.email) none none t] ∧
    (∀ r₁ r₂ : Option UserRole,
      signup hash ⟨p.email, p.password, r₁⟩ t db =
        signup hash ⟨p.email, p.password, r₂⟩ t db) := by
  obtain ⟨w1, -, -, -, w5, -, -⟩ := hwf
  have hmail : (db.users.any (fun u => u.email == p.email)) = false := by
    rw [Bool.eq_false_iff]
    intro hany
    obtain ⟨u, hu, hbeq⟩ := List.any_eq_true.1 hany
    exact hno u hu (by simpa using hbeq)
  have hok : prefInsertOk (DB.mk
      (db.users ++ [User.mk db.nextUserId p.email (hash p.password)
        UserRole.customer true t])
      db.orders db.history db.prefs (db.nextUserId + 1) db.nextOrderId
      db.nextHistoryId db.nextPrefId)
      (NotificationPreference.mk db.nextPrefId db.nextUserId true
        NotificationChannel.email (some p.email) none none t) = true := by
    unfold prefInsertOk
    rw [Bool.and_eq_true]
    constructor
    · rw [List.all_eq_true]
      intro q hq
      have := w5 q hq
      simp only [bne_iff_ne, ne_eq]
      exact Nat.ne_of_lt this
    · rw [List.any_eq_true]
      refine ⟨User.mk db.nextUserId p.email (hash p.password)
        UserRole.customer true t, ?_, by simp⟩
      exact List.mem_append_right _ (List.mem_singleton.2 rfl)
  unfold signup runTransaction signupBody
  rw [if_neg (by rw [hmail]; decide)]
  dsimp only
  rw [if_pos hok]
  exact ⟨⟨_, rfl, rfl⟩, rfl, rfl, fun r₁ r₂ => rfl⟩

/-- Closed witness for C10: signup of "new@x" in `wDb0` with the payload
even requesting the admin role. -/
theorem signup_customer_role_and_default_pref_witness :
    WF wDb0 ∧ (∀ u ∈ wDb0.users, u.email ≠ "new@x") ∧
    ((∃ resp,
      (signup (fun s => s) ⟨"new@x", "password9", some .admin⟩ 2 wDb0).1 =
        .ok resp ∧ resp.role = UserRole.customer) ∧
    (signup (fun s => s) ⟨"new@x", "password9", some .admin⟩ 2
        wDb0).2.users =
      wDb0.users ++ [User.mk wDb0.nextUserId "new@x"
        ((fun s => s) "password9") UserRole.customer true 2] ∧
    (signup (fun s => s) ⟨"new@x", "password9", some .admin⟩ 2
        wDb0).2.prefs =
      wDb0.prefs ++ [NotificationPreference.mk wDb0.nextPrefId
        wDb0.nextUserId true NotificationChannel.email (some "new@x") none
        none 2] ∧
    (∀ r₁ r₂ : Option UserRole,
      signup (fun s => s) ⟨"new@x", "password9", r₁⟩ 2 wDb0 =
        signup (fun s => s) ⟨"new@x", "password9", r₂⟩ 2 wDb0)) :=
  ⟨by decide, by decide,
   signup_customer_role_and_default_pref wDb0 (by decide) (fun s => s)
     ⟨"new@x", "password9", some .admin⟩ 2 (by decide)⟩

end OrderTracker
